import Mathlib

/-
Verification of the marker-mind interactive canvas editor.

The embedding models the TypeScript source shallowly in Lean:
JavaScript numbers are modelled as rationals (exact arithmetic),
Math.round x as the integer floor of x + 1/2 (JavaScript rounds
half toward positive infinity), and stateful React hooks as pure
state-transition functions.
-/

namespace MarkerMind

/-! Viewport transform (client/src/pages/Board.tsx). -/

/-- MIN_ZOOM constant from Board.tsx. -/
def MIN_ZOOM : ℚ := 1/4

/-- MAX_ZOOM constant from Board.tsx. -/
def MAX_ZOOM : ℚ := 3

/-- Viewport state of the Board page: pan offset and zoom scalar. -/
structure Viewport where
  panX : ℚ
  panY : ℚ
  zoom : ℚ
deriving DecidableEq

/-- Math.round on a rational: JavaScript rounds half toward positive
infinity, so Math.round x = floor (x + 1/2). -/
def mround (q : ℚ) : ℤ := ⌊q + 1/2⌋

/-- screenToCanvas from Board.tsx: (screen - pan) / zoom, componentwise. -/
def screenToCanvas (v : Viewport) (sx sy : ℚ) : ℚ × ℚ :=
  ((sx - v.panX) / v.zoom, (sy - v.panY) / v.zoom)

/-- handleWheel from Board.tsx.  The event supplies deltaY and the anchor
(mouse) position in canvas-element coordinates; the trackpad test
compares |deltaY| with 50 (zoomSpeed 0.002 or 0.05), newZoom is
zoom + zoomDelta clamped to [MIN_ZOOM, MAX_ZOOM], and pan and zoom are
updated only when the zoom change exceeds 0.001, with
pan = anchor - (anchor - pan) * (newZoom / zoom). -/
def handleWheel (v : Viewport) (anchorX anchorY deltaY : ℚ) : Viewport :=
  if 1/1000 < |min MAX_ZOOM (max MIN_ZOOM
      (v.zoom + -deltaY * (if |deltaY| < 50 then 2/1000 else 5/100))) - v.zoom| then
    { panX := anchorX - (anchorX - v.panX) *
        (min MAX_ZOOM (max MIN_ZOOM
          (v.zoom + -deltaY * (if |deltaY| < 50 then 2/1000 else 5/100))) / v.zoom)
      panY := anchorY - (anchorY - v.panY) *
        (min MAX_ZOOM (max MIN_ZOOM
          (v.zoom + -deltaY * (if |deltaY| < 50 then 2/1000 else 5/100))) / v.zoom)
      zoom := min MAX_ZOOM (max MIN_ZOOM
        (v.zoom + -deltaY * (if |deltaY| < 50 then 2/1000 else 5/100))) }
  else v

/-- handleZoomIn from Board.tsx: discrete zoom-in step of the zoom
control; rounds the zoom to a percentage, takes the ceiling multiple of
25 plus 25, and clamps to MAX_ZOOM. -/
def handleZoomIn (z : ℚ) : ℚ :=
  min MAX_ZOOM (((⌈((mround (z * 100) : ℤ) : ℚ) / 25⌉ * 25 + 25 : ℤ) : ℚ) / 100)

/-- handleZoomOut from Board.tsx: discrete zoom-out step; rounds the zoom
to a percentage, takes the floor multiple of 25 minus 25, clamps the
percentage below by 25 and the zoom below by MIN_ZOOM. -/
def handleZoomOut (z : ℚ) : ℚ :=
  max MIN_ZOOM (((max 25 (⌊((mround (z * 100) : ℤ) : ℚ) / 25⌋ * 25 - 25) : ℤ) : ℚ) / 100)

/-- C1: Zoom-to-cursor invariant.  For every viewport with zoom in
[0.25, 3] and every anchor screen point and wheel delta, the canvas
coordinate under the anchor is unchanged by handleWheel, exactly in
rational arithmetic. -/
theorem zoom_to_cursor_invariant (v : Viewport) (ax ay dy : ℚ)
    (hlo : MIN_ZOOM ≤ v.zoom) (hhi : v.zoom ≤ MAX_ZOOM) :
    screenToCanvas (handleWheel v ax ay dy) ax ay = screenToCanvas v ax ay := by
  have hz : v.zoom ≠ 0 := by
    have h0 : (0:ℚ) < v.zoom := lt_of_lt_of_le (by norm_num [MIN_ZOOM]) hlo
    exact ne_of_gt h0
  unfold handleWheel
  set nz : ℚ := min MAX_ZOOM (max MIN_ZOOM
      (v.zoom + -dy * (if |dy| < 50 then 2/1000 else 5/100))) with hnz
  have hnzlo : MIN_ZOOM ≤ nz :=
    le_min (by norm_num [MIN_ZOOM, MAX_ZOOM]) (le_max_left _ _)
  have hnzne : nz ≠ 0 := by
    have h0 : (0:ℚ) < nz := lt_of_lt_of_le (by norm_num [MIN_ZOOM]) hnzlo
    exact ne_of_gt h0
  by_cases hcond : 1/1000 < |nz - v.zoom|
  · rw [if_pos hcond]
    unfold screenToCanvas
    dsimp only
    simp only [Prod.mk.injEq]
    constructor <;> (field_simp; ring)
  · rw [if_neg hcond]

/-- Witness for the zoom-to-cursor invariant at a concrete viewport. -/
theorem zoom_to_cursor_invariant_witness :
    screenToCanvas (handleWheel ⟨10, 20, 1⟩ 300 200 (-100)) 300 200 =
      screenToCanvas ⟨10, 20, 1⟩ 300 200 :=
  zoom_to_cursor_invariant ⟨10, 20, 1⟩ 300 200 (-100)
    (by norm_num [MIN_ZOOM]) (by norm_num [MAX_ZOOM])

/-- On the 25-percent lattice, each discrete zoom step moves to the
adjacent increment, clamped to the zoom range. -/
lemma zoom_step_lattice (z : ℚ) (k : ℤ) (hk : z = (k : ℚ) / 4) :
    handleZoomIn z = min MAX_ZOOM (z + 1/4) ∧
    handleZoomOut z = max MIN_ZOOM (z - 1/4) := by
  have hzk : z * 100 = ((25 * k : ℤ) : ℚ) := by
    rw [hk]; push_cast; ring
  have hhalf : ⌊(1/2 : ℚ)⌋ = 0 := by
    rw [Int.floor_eq_zero_iff]
    constructor <;> norm_num
  have hround : mround (z * 100) = 25 * k := by
    unfold mround
    rw [hzk, add_comm, Int.floor_add_int, hhalf, zero_add]
  have hdiv : ((25 * k : ℤ) : ℚ) / 25 = (k : ℚ) := by push_cast; ring
  constructor
  · unfold handleZoomIn
    rw [hround, hdiv, Int.ceil_intCast]
    congr 1
    rw [hk]; push_cast; ring
  · unfold handleZoomOut
    rw [hround, hdiv, Int.floor_intCast]
    have hcast : (((max 25 (k * 25 - 25) : ℤ)) : ℚ) / 100 =
        max (1/4 : ℚ) (z - 1/4) := by
      push_cast [Int.cast_max]
      rw [← max_div_div_right (by norm_num : (0:ℚ) ≤ 100)]
      congr 1
      · norm_num
      · rw [hk]; ring
    rw [hcast, show MIN_ZOOM = (1/4 : ℚ) from rfl, ← max_assoc, max_self]

/-- C5: Discrete step zoom.  The concrete scenario 1.00 to 1.25 to 1.50
to 1.75 by three zoom-in steps and back to 1.50 by one zoom-out step;
and in general, from any zoom on the 25-percent lattice inside
[MIN_ZOOM, MAX_ZOOM], a step moves to the adjacent 25-percent increment
(clamped), and the result stays within [MIN_ZOOM, MAX_ZOOM]. -/
theorem step_zoom_scenario :
    (handleZoomIn 1 = 5/4 ∧ handleZoomIn (5/4) = 3/2 ∧
     handleZoomIn (3/2) = 7/4 ∧ handleZoomOut (7/4) = 3/2) ∧
    (∀ z : ℚ, ∀ k : ℤ, z = (k : ℚ) / 4 → MIN_ZOOM ≤ z → z ≤ MAX_ZOOM →
      handleZoomIn z = min MAX_ZOOM (z + 1/4) ∧
      handleZoomOut z = max MIN_ZOOM (z - 1/4) ∧
      MIN_ZOOM ≤ handleZoomIn z ∧ handleZoomIn z ≤ MAX_ZOOM ∧
      MIN_ZOOM ≤ handleZoomOut z ∧ handleZoomOut z ≤ MAX_ZOOM) := by
  constructor
  · refine ⟨?_, ?_, ?_, ?_⟩
    · rw [(zoom_step_lattice 1 4 (by norm_num)).1]; norm_num [MAX_ZOOM]
    · rw [(zoom_step_lattice (5/4) 5 (by norm_num)).1]; norm_num [MAX_ZOOM]
    · rw [(zoom_step_lattice (3/2) 6 (by norm_num)).1]; norm_num [MAX_ZOOM]
    · rw [(zoom_step_lattice (7/4) 7 (by norm_num)).2]; norm_num [MIN_ZOOM]
  · intro z k hk hlo hhi
    obtain ⟨hin, hout⟩ := zoom_step_lattice z k hk
    refine ⟨hin, hout, ?_, ?_, ?_, ?_⟩
    · rw [hin]
      refine le_min (by norm_num [MIN_ZOOM, MAX_ZOOM]) ?_
      have h1 : MIN_ZOOM ≤ z := hlo
      norm_num [MIN_ZOOM] at h1 ⊢
      linarith
    · rw [hin]; exact min_le_left _ _
    · rw [hout]; exact le_max_left _ _
    · rw [hout]
      refine max_le (by norm_num [MIN_ZOOM, MAX_ZOOM]) ?_
      have h1 : z ≤ MAX_ZOOM := hhi
      norm_num [MAX_ZOOM] at h1 ⊢
      linarith

/-- Witness for the general part of the step-zoom theorem at z = 1. -/
theorem step_zoom_scenario_witness :
    handleZoomIn 1 = min MAX_ZOOM (1 + 1/4) ∧
    handleZoomOut 1 = max MIN_ZOOM (1 - 1/4) :=
  ⟨(step_zoom_scenario.2 1 4 (by norm_num) (by norm_num [MIN_ZOOM])
      (by norm_num [MAX_ZOOM])).1,
   (step_zoom_scenario.2 1 4 (by norm_num) (by norm_num [MIN_ZOOM])
      (by norm_num [MAX_ZOOM])).2.1⟩

/-! Line tool (client/src/components/LineCanvas.tsx). -/

/-- A 2-d point in canvas units. -/
structure Pt where
  x : ℚ
  y : ℚ
deriving DecidableEq

/-- The snapAngles array from LineCanvas.tsx. -/
def snapAngles : List ℚ := [0, 45, 90, 135, 180, -45, -90, -135, -180]

/-- One iteration of the closest-snap-angle loop in snapAngle: update the
running (closestAngle, minDiff) pair when the candidate s is strictly
closer to the raw angle. -/
def snapStep (angle : ℚ) (acc : ℚ × ℚ) (s : ℚ) : ℚ × ℚ :=
  if |angle - s| < acc.2 then (s, |angle - s|) else acc

/-- The loop of snapAngle from LineCanvas.tsx: initialize with the first
candidate (0, |angle - 0|) and scan the whole snapAngles array. -/
def snapSearch (angle : ℚ) : ℚ × ℚ :=
  snapAngles.foldl (snapStep angle) (0, |angle - 0|)

/-- snapAngle from LineCanvas.tsx, modelled on the polar representation
of the raw end point relative to the start point.  The source computes
angle = atan2 dy dx * 180 / pi (degrees in the range minus 180
exclusive to 180 inclusive) and distance = sqrt (dx^2 + dy^2), then
either returns the raw end point unchanged or the point at the same
distance from the start along the closest candidate angle; carrying
(angle, distance) directly, the returned pair is the polar form of the
returned end point relative to the start. -/
def snapAnglePolar (angle dist : ℚ) : ℚ × ℚ :=
  if (snapSearch angle).2 < 15 then ((snapSearch angle).1, dist) else (angle, dist)

/-- The candidate snap directions named by the specification:
0, 45, 90, 135, 180, -45, -90, -135 degrees. -/
def specSnapAngles : List ℚ := [0, 45, 90, 135, 180, -45, -90, -135]

/-- Circular angular distance between two angles in degrees, valid when
the plain difference is at most 360 in magnitude. -/
def angDist (a b : ℚ) : ℚ := min |a - b| (360 - |a - b|)

/-- Two angle values denote the same direction when they differ by a
multiple of 360 degrees. -/
def sameDir (a b : ℚ) : Prop := ∃ n : ℤ, a - b = 360 * n

/-- If the raw angle is within 15 degrees of the candidate c and a second
candidate s is at least 45 degrees from c, then c is strictly closer to
the raw angle than s. -/
lemma gap_lt (angle c s : ℚ) (h1 : |angle - c| < 15) (h2 : 45 ≤ |c - s|) :
    |angle - c| < |angle - s| := by
  have h3 : |c - s| ≤ |c - angle| + |angle - s| := abs_sub_le c angle s
  rw [abs_sub_comm c angle] at h3
  linarith

/-- The snap loop never lowers the running minimum below 15 when every
candidate is at least 15 degrees from the raw angle. -/
lemma foldl_snapStep_ge (angle : ℚ) :
    ∀ (L : List ℚ) (acc : ℚ × ℚ), 15 ≤ acc.2 → (∀ s ∈ L, 15 ≤ |angle - s|) →
      15 ≤ (L.foldl (snapStep angle) acc).2 := by
  intro L
  induction L with
  | nil => intro acc h _; exact h
  | cons s L ih =>
    intro acc h hall
    simp only [List.foldl_cons]
    apply ih
    · unfold snapStep
      split_ifs with hs
      · exact hall s (List.mem_cons_self s L)
      · exact h
    · intro t ht
      exact hall t (List.mem_cons_of_mem s ht)

/-- Once the snap loop holds the pair (c, |angle - c|) and no remaining
candidate is strictly closer than c, the loop keeps that pair. -/
lemma foldl_snapStep_stay (angle c : ℚ) :
    ∀ (L : List ℚ), (∀ s ∈ L, ¬ |angle - s| < |angle - c|) →
      L.foldl (snapStep angle) (c, |angle - c|) = (c, |angle - c|) := by
  intro L
  induction L with
  | nil => intro _; rfl
  | cons s L ih =>
    intro hall
    simp only [List.foldl_cons]
    have hs : snapStep angle (c, |angle - c|) s = (c, |angle - c|) := by
      unfold snapStep
      rw [if_neg (hall s (List.mem_cons_self s L))]
    rw [hs]
    exact ih (fun t ht => hall t (List.mem_cons_of_mem s ht))

/-- If the candidate c occurs in the remaining list and is strictly
closer to the raw angle than every other candidate of the list, then the
snap loop ends at (c, |angle - c|), provided the accumulator is either
beaten by c or already equal to that pair. -/
lemma foldl_snapStep_hits (angle c : ℚ) :
    ∀ (L : List ℚ), c ∈ L → (∀ s ∈ L, s = c ∨ |angle - c| < |angle - s|) →
      ∀ acc : ℚ × ℚ, (|angle - c| < acc.2 ∨ acc = (c, |angle - c|)) →
      L.foldl (snapStep angle) acc = (c, |angle - c|) := by
  intro L
  induction L with
  | nil => intro hc; cases hc
  | cons s L ih =>
    intro hc hmin acc hacc
    simp only [List.foldl_cons]
    by_cases hsc : s = c
    · subst hsc
      have hstep : snapStep angle acc s = (s, |angle - s|) := by
        unfold snapStep
        rcases hacc with h | h
        · rw [if_pos h]
        · rw [h]
          split_ifs <;> rfl
      rw [hstep]
      apply foldl_snapStep_stay
      intro t ht
      rcases hmin t (List.mem_cons_of_mem s ht) with rfl | hlt
      · exact lt_irrefl _
      · exact not_lt_of_gt hlt
    · have hcL : c ∈ L := by
        rcases List.mem_cons.mp hc with h | h
        · exact absurd h.symm hsc
        · exact h
      have hsgt : |angle - c| < |angle - s| := by
        rcases hmin s (List.mem_cons_self s L) with h | h
        · exact absurd h hsc
        · exact h
      apply ih hcL (fun t ht => hmin t (List.mem_cons_of_mem s ht))
      unfold snapStep
      split_ifs with hupd
      · exact Or.inl hsgt
      · exact hacc

/-- If the raw angle is within 15 degrees (plain difference) of a member
cc of the snapAngles array, snapAngle snaps to cc at the same distance. -/
lemma snapAnglePolar_snaps (angle d cc : ℚ) (hcc : cc ∈ snapAngles)
    (hnear : |angle - cc| < 15) :
    snapAnglePolar angle d = (cc, d) := by
  have hsearch : snapSearch angle = (cc, |angle - cc|) := by
    unfold snapSearch
    have hmin : ∀ s ∈ snapAngles, s = cc ∨ |angle - cc| < |angle - s| := by
      intro s hs
      by_cases hscc : s = cc
      · exact Or.inl hscc
      · refine Or.inr (gap_lt angle cc s hnear ?_)
        fin_cases hcc <;> fin_cases hs <;>
          first | (exact absurd rfl hscc) | norm_num
    apply foldl_snapStep_hits angle cc snapAngles hcc hmin
    by_cases hcc0 : cc = 0
    · subst hcc0
      right
      norm_num
    · left
      have hgap : (45:ℚ) ≤ |cc - 0| := by
        fin_cases hcc <;> first | (exact absurd rfl hcc0) | norm_num
      exact gap_lt angle cc 0 hnear hgap
  unfold snapAnglePolar
  rw [hsearch]
  dsimp only
  rw [if_pos hnear]

/-- If every member of the snapAngles array is at least 15 degrees
(plain difference) from the raw angle, snapAngle keeps the raw end
point. -/
lemma snapAnglePolar_keeps (angle d : ℚ)
    (hall : ∀ s ∈ snapAngles, 15 ≤ |angle - s|) :
    snapAnglePolar angle d = (angle, d) := by
  unfold snapAnglePolar
  rw [if_neg]
  rw [not_lt]
  apply foldl_snapStep_ge angle snapAngles (0, |angle - 0|) _ hall
  exact hall 0 (by norm_num [snapAngles])

/-- For a raw angle in the atan2 range and a candidate direction of
magnitude at most 135 degrees, circular distance below 15 forces plain
distance below 15. -/
lemma angDist_small (angle c : ℚ) (h1 : -180 < angle) (h2 : angle ≤ 180)
    (hc : |c| ≤ 135) (hnear : angDist angle c < 15) : |angle - c| < 15 := by
  rcases min_lt_iff.mp hnear with h | h
  · exact h
  · exfalso
    have habs : |angle| ≤ 180 := abs_le.mpr ⟨le_of_lt h1, h2⟩
    have htri : |angle - c| ≤ |angle| + |c| := by
      rw [sub_eq_add_neg]
      exact (abs_add _ _).trans (le_of_eq (by rw [abs_neg]))
    linarith

/-- C2: Angle snapping.  A segment drawn at raw angle 44 degrees snaps
to exactly 45 degrees at the drawn distance and a segment at 60 degrees
is returned unchanged; in general, whenever a candidate direction from
the set 0, plus-minus 45, plus-minus 90, plus-minus 135, 180 is within
an angular (circular) distance strictly below 15 degrees of the raw
angle, the end point is replaced by the point at the original distance
along that direction, and when every candidate is at least 15 degrees
away the raw end point is kept. -/
theorem angle_snapping_spec :
    (∀ d : ℚ, snapAnglePolar 44 d = (45, d)) ∧
    (∀ d : ℚ, snapAnglePolar 60 d = (60, d)) ∧
    (∀ angle d c : ℚ, -180 < angle → angle ≤ 180 → c ∈ specSnapAngles →
      angDist angle c < 15 →
      ∃ cc : ℚ, snapAnglePolar angle d = (cc, d) ∧ sameDir cc c) ∧
    (∀ angle d : ℚ, -180 < angle → angle ≤ 180 →
      (∀ c ∈ specSnapAngles, 15 ≤ angDist angle c) →
      snapAnglePolar angle d = (angle, d)) := by
  refine ⟨?_, ?_, ?_, ?_⟩
  · intro d
    exact snapAnglePolar_snaps 44 d 45 (by norm_num [snapAngles]) (by norm_num)
  · intro d
    apply snapAnglePolar_keeps
    intro s hs
    fin_cases hs <;> norm_num
  · intro angle d c h1 h2 hc hnear
    fin_cases hc
    · exact ⟨0, snapAnglePolar_snaps angle d 0 (by norm_num [snapAngles])
        (angDist_small angle 0 h1 h2 (by norm_num) hnear), 0, by ring⟩
    · exact ⟨45, snapAnglePolar_snaps angle d 45 (by norm_num [snapAngles])
        (angDist_small angle 45 h1 h2 (by norm_num) hnear), 0, by ring⟩
    · exact ⟨90, snapAnglePolar_snaps angle d 90 (by norm_num [snapAngles])
        (angDist_small angle 90 h1 h2 (by norm_num) hnear), 0, by ring⟩
    · exact ⟨135, snapAnglePolar_snaps angle d 135 (by norm_num [snapAngles])
        (angDist_small angle 135 h1 h2 (by norm_num) hnear), 0, by ring⟩
    · -- c = 180: either the raw angle is just below 180 or just above -180
      have habs : |angle - 180| = 180 - angle := by
        rw [abs_of_nonpos (by linarith)]
        ring
      rcases min_lt_iff.mp hnear with h | h
      · rw [habs] at h
        refine ⟨180, snapAnglePolar_snaps angle d 180 (by norm_num [snapAngles]) ?_, 0, by ring⟩
        rw [habs]
        exact h
      · rw [habs] at h
        refine ⟨-180, snapAnglePolar_snaps angle d (-180) (by norm_num [snapAngles]) ?_, -1, by ring⟩
        rw [abs_of_nonneg (by linarith : (0:ℚ) ≤ angle - -180)]
        linarith
    · exact ⟨-45, snapAnglePolar_snaps angle d (-45) (by norm_num [snapAngles])
        (angDist_small angle (-45) h1 h2 (by norm_num) hnear), 0, by ring⟩
    · exact ⟨-90, snapAnglePolar_snaps angle d (-90) (by norm_num [snapAngles])
        (angDist_small angle (-90) h1 h2 (by norm_num) hnear), 0, by ring⟩
    · exact ⟨-135, snapAnglePolar_snaps angle d (-135) (by norm_num [snapAngles])
        (angDist_small angle (-135) h1 h2 (by norm_num) hnear), 0, by ring⟩
  · intro angle d h1 h2 hall
    apply snapAnglePolar_keeps
    have h180 := hall 180 (by norm_num [specSnapAngles])
    unfold angDist at h180
    have habs : |angle - 180| = 180 - angle := by
      rw [abs_of_nonpos (by linarith)]
      ring
    intro s hs
    fin_cases hs
    · exact (le_min_iff.mp (hall 0 (by norm_num [specSnapAngles]))).1
    · exact (le_min_iff.mp (hall 45 (by norm_num [specSnapAngles]))).1
    · exact (le_min_iff.mp (hall 90 (by norm_num [specSnapAngles]))).1
    · exact (le_min_iff.mp (hall 135 (by norm_num [specSnapAngles]))).1
    · exact (le_min_iff.mp (hall 180 (by norm_num [specSnapAngles]))).1
    · exact (le_min_iff.mp (hall (-45) (by norm_num [specSnapAngles]))).1
    · exact (le_min_iff.mp (hall (-90) (by norm_num [specSnapAngles]))).1
    · exact (le_min_iff.mp (hall (-135) (by norm_num [specSnapAngles]))).1
    · -- s = -180: use the circular bound at candidate 180
      have h2' := (le_min_iff.mp h180).2
      rw [habs] at h2'
      rw [abs_of_nonneg (by linarith : (0:ℚ) ≤ angle - -180)]
      linarith

/-- Witness for the angle-snapping theorem: the general snap clause at
raw angle 44, distance 7, candidate 45, and the keep clause at raw
angle 60, distance 7. -/
theorem angle_snapping_spec_witness :
    (∃ cc : ℚ, snapAnglePolar 44 7 = (cc, 7) ∧ sameDir cc 45) ∧
    snapAnglePolar 60 7 = (60, 7) :=
  ⟨angle_snapping_spec.2.2.1 44 7 45 (by norm_num) (by norm_num)
      (by norm_num [specSnapAngles]) (by norm_num [angDist]),
   angle_snapping_spec.2.2.2 60 7 (by norm_num) (by norm_num)
      (by intro c hc; fin_cases hc <;> norm_num [angDist])⟩

/-- A Line object (shared/schema.ts) as used by LineCanvas.tsx:
endpoints, stroke colour, thickness and style.  Server bookkeeping
fields (boardId, createdAt) are not modelled. -/
structure LineObj where
  id : String
  x1 : ℚ
  y1 : ℚ
  x2 : ℚ
  y2 : ℚ
  color : String
  thickness : ℚ
  lineStyle : String
deriving DecidableEq

/-- Squared Euclidean distance between two points.  handlePointerUp in
LineCanvas.tsx computes sqrt of this and compares the root with 10; the
comparison sqrt dsq > 10 is equivalent to dsq > 100, which is the form
used in the executable model (the equivalence is proved in the
short-line theorem). -/
def distSq (p q : Pt) : ℚ := (q.x - p.x)^2 + (q.y - p.y)^2

/-- The Line committed by handlePointerUp: all four coordinates are
Math.round of the start and (snapped) end points. -/
def mkCommittedLine (id : String) (s e : Pt) (color : String)
    (thickness : ℚ) : LineObj :=
  { id := id
    x1 := (mround s.x : ℚ)
    y1 := (mround s.y : ℚ)
    x2 := (mround e.x : ℚ)
    y2 := (mround e.y : ℚ)
    color := color
    thickness := thickness
    lineStyle := "solid" }

/-- handlePointerUp from LineCanvas.tsx, acting on the board's line
collection: when the segment from the start point to the current
(snapped) end point is longer than 10 canvas units, a new Line with
rounded coordinates is appended (onAddLine feeding the create-line
handler); otherwise the gesture is discarded and the collection is
unchanged. -/
def handlePointerUp (lines : List LineObj) (id : String) (s e : Pt)
    (color : String) (thickness : ℚ) : List LineObj :=
  if 100 < distSq s e then lines ++ [mkCommittedLine id s e color thickness]
  else lines

/-- handleEndpointDragStart's move handler from LineCanvas.tsx: commit
the dragged endpoint (endpoint1 when first is true, endpoint2
otherwise) at the rounded new position; the other endpoint is
untouched. -/
def endpointMoveCommit (l : LineObj) (first : Bool) (newPos : Pt) : LineObj :=
  if first then
    { l with x1 := (mround newPos.x : ℚ), y1 := (mround newPos.y : ℚ) }
  else
    { l with x2 := (mround newPos.x : ℚ), y2 := (mround newPos.y : ℚ) }

/-- handleLineDragStart's move handler from LineCanvas.tsx: commit both
endpoints translated by the pointer delta (dx, dy) in canvas space,
each coordinate rounded. -/
def lineDragMoveCommit (l : LineObj) (dx dy : ℚ) : LineObj :=
  { l with
    x1 := (mround (l.x1 + dx) : ℚ)
    y1 := (mround (l.y1 + dy) : ℚ)
    x2 := (mround (l.x2 + dx) : ℚ)
    y2 := (mround (l.y2 + dy) : ℚ) }

/-- A rational is integral when it is the cast of an integer. -/
def isIntegral (q : ℚ) : Prop := ∃ n : ℤ, q = (n : ℚ)

/-- Math.round distributes over adding an integer. -/
lemma mround_intCast_add (n : ℤ) (d : ℚ) : mround ((n : ℚ) + d) = n + mround d := by
  unfold mround
  rw [add_assoc, add_comm (n : ℚ), Int.floor_add_int]
  ring

/-- C6: Short-line discard.  On pointer-up, a new Line is committed if
and only if the Euclidean distance between the (snapped) end point and
the start point is strictly greater than 10 canvas units; when the
length is at most 10 the line collection is unchanged. -/
theorem short_line_discard (lines : List LineObj) (id : String) (s e : Pt)
    (color : String) (thickness : ℚ) :
    (handlePointerUp lines id s e color thickness =
        lines ++ [mkCommittedLine id s e color thickness] ↔
      10 < Real.sqrt ((distSq s e : ℚ) : ℝ)) ∧
    (Real.sqrt ((distSq s e : ℚ) : ℝ) ≤ 10 →
      handlePointerUp lines id s e color thickness = lines) := by
  have hnn : (0:ℝ) ≤ ((distSq s e : ℚ) : ℝ) := by
    have h0 : (0:ℚ) ≤ distSq s e := by unfold distSq; positivity
    exact_mod_cast h0
  have hsqrt : 10 < Real.sqrt ((distSq s e : ℚ) : ℝ) ↔ 100 < distSq s e := by
    rw [Real.lt_sqrt (by norm_num)]
    constructor <;> intro h
    · have h' : (100:ℝ) < ((distSq s e : ℚ) : ℝ) := by nlinarith
      exact_mod_cast h'
    · have h' : (100:ℝ) < ((distSq s e : ℚ) : ℝ) := by exact_mod_cast h
      nlinarith
  constructor
  · rw [hsqrt]
    unfold handlePointerUp
    constructor
    · intro heq
      by_contra hnot
      rw [if_neg hnot] at heq
      have hlen := congrArg List.length heq
      simp at hlen
    · intro h
      rw [if_pos h]
  · intro hle
    unfold handlePointerUp
    rw [if_neg ((not_congr hsqrt).mp (not_lt.mpr hle))]

/-- Witness for the short-line theorem: a 6-8-10 segment (length
exactly 10) is discarded. -/
theorem short_line_discard_witness :
    handlePointerUp [] "l1" ⟨0, 0⟩ ⟨6, 8⟩ "#000000" 3 = [] := by
  apply (short_line_discard [] "l1" ⟨0, 0⟩ ⟨6, 8⟩ "#000000" 3).2
  have hq : distSq ⟨0, 0⟩ ⟨6, 8⟩ = 100 := by norm_num [distSq]
  rw [hq]
  rw [show (((100:ℚ)):ℝ) = (10:ℝ)^2 by norm_num]
  rw [Real.sqrt_sq (by norm_num : (0:ℝ) ≤ 10)]

/-- C10: Integer line coordinates.  Every commit path of the line tool
(pointer-up creation, endpoint-handle drag, midpoint move handle)
writes Math.round-ed coordinates, hence integral values; and for a line
whose endpoints are already integral, a midpoint move applies the same
integer delta to both endpoints, preserving the difference vector
(length and direction) exactly. -/
theorem line_coords_integral (id : String) (s e newPos : Pt)
    (color : String) (thickness : ℚ) (l : LineObj) (first : Bool) (dx dy : ℚ)
    (hx1 : isIntegral l.x1) (hy1 : isIntegral l.y1)
    (hx2 : isIntegral l.x2) (hy2 : isIntegral l.y2) :
    (isIntegral (mkCommittedLine id s e color thickness).x1 ∧
     isIntegral (mkCommittedLine id s e color thickness).y1 ∧
     isIntegral (mkCommittedLine id s e color thickness).x2 ∧
     isIntegral (mkCommittedLine id s e color thickness).y2) ∧
    (isIntegral (endpointMoveCommit l first newPos).x1 ∧
     isIntegral (endpointMoveCommit l first newPos).y1 ∧
     isIntegral (endpointMoveCommit l first newPos).x2 ∧
     isIntegral (endpointMoveCommit l first newPos).y2) ∧
    ((lineDragMoveCommit l dx dy).x1 - l.x1 = ((mround dx : ℤ) : ℚ) ∧
     (lineDragMoveCommit l dx dy).x2 - l.x2 = ((mround dx : ℤ) : ℚ) ∧
     (lineDragMoveCommit l dx dy).y1 - l.y1 = ((mround dy : ℤ) : ℚ) ∧
     (lineDragMoveCommit l dx dy).y2 - l.y2 = ((mround dy : ℤ) : ℚ)) ∧
    ((lineDragMoveCommit l dx dy).x2 - (lineDragMoveCommit l dx dy).x1 =
        l.x2 - l.x1 ∧
     (lineDragMoveCommit l dx dy).y2 - (lineDragMoveCommit l dx dy).y1 =
        l.y2 - l.y1) := by
  obtain ⟨n1, hn1⟩ := hx1
  obtain ⟨m1, hm1⟩ := hy1
  obtain ⟨n2, hn2⟩ := hx2
  obtain ⟨m2, hm2⟩ := hy2
  have hdragx1 : (lineDragMoveCommit l dx dy).x1 - l.x1 = ((mround dx : ℤ) : ℚ) := by
    unfold lineDragMoveCommit
    dsimp only
    rw [hn1, mround_intCast_add]
    push_cast
    ring
  have hdragx2 : (lineDragMoveCommit l dx dy).x2 - l.x2 = ((mround dx : ℤ) : ℚ) := by
    unfold lineDragMoveCommit
    dsimp only
    rw [hn2, mround_intCast_add]
    push_cast
    ring
  have hdragy1 : (lineDragMoveCommit l dx dy).y1 - l.y1 = ((mround dy : ℤ) : ℚ) := by
    unfold lineDragMoveCommit
    dsimp only
    rw [hm1, mround_intCast_add]
    push_cast
    ring
  have hdragy2 : (lineDragMoveCommit l dx dy).y2 - l.y2 = ((mround dy : ℤ) : ℚ) := by
    unfold lineDragMoveCommit
    dsimp only
    rw [hm2, mround_intCast_add]
    push_cast
    ring
  refine ⟨⟨⟨_, rfl⟩, ⟨_, rfl⟩, ⟨_, rfl⟩, ⟨_, rfl⟩⟩, ?_,
    ⟨hdragx1, hdragx2, hdragy1, hdragy2⟩, ?_, ?_⟩
  · unfold endpointMoveCommit
    cases first
    · exact ⟨⟨n1, hn1⟩, ⟨m1, hm1⟩, ⟨_, rfl⟩, ⟨_, rfl⟩⟩
    · exact ⟨⟨_, rfl⟩, ⟨_, rfl⟩, ⟨n2, hn2⟩, ⟨m2, hm2⟩⟩
  · linarith [hdragx1, hdragx2]
  · linarith [hdragy1, hdragy2]

/-- Witness for the line-coordinate theorem at a concrete integral
line. -/
theorem line_coords_integral_witness :
    (lineDragMoveCommit ⟨"l1", 0, 0, 100, 0, "#000000", 3, "solid"⟩
        (7/2) (-3/2)).x2 -
      (lineDragMoveCommit ⟨"l1", 0, 0, 100, 0, "#000000", 3, "solid"⟩
        (7/2) (-3/2)).x1 = 100 - 0 :=
  (line_coords_integral "l1" ⟨0, 0⟩ ⟨1, 1⟩ ⟨2, 2⟩ "#000000" 3
      ⟨"l1", 0, 0, 100, 0, "#000000", 3, "solid"⟩ true (7/2) (-3/2)
      ⟨0, by norm_num⟩ ⟨0, by norm_num⟩ ⟨100, by norm_num⟩
      ⟨0, by norm_num⟩).2.2.2.1

/-! Sticky-note resize (client/src/components/StickyNote.tsx). -/

/-- The minimum sticky-note size enforced by handleResizeStart. -/
def MIN_NOTE_SIZE : ℚ := 60

/-- One dimension of handleResizeMove in StickyNote.tsx: the pointer
delta in screen pixels is divided by the zoom and added to the gesture
start size, clamped below at 60. -/
def resizeMoveSize (startSize zoom deltaScreen : ℚ) : ℚ :=
  max 60 (startSize + deltaScreen / zoom)

/-- One dimension of handleResizeEnd in StickyNote.tsx: the same
formula as the move frames, rounded for the committed update. -/
def resizeCommitSize (startSize zoom deltaScreen : ℚ) : ℤ :=
  mround (resizeMoveSize startSize zoom deltaScreen)

/-! Board-image resize (client/src/components/BoardImage.tsx). -/

/-- The width dimension of handleResizeMove and handleResizeEnd in
BoardImage.tsx: the pointer delta in screen pixels divided by the zoom
and added to the gesture start width, clamped below at 50. -/
def imageResizeMoveWidth (startW zoom dxS : ℚ) : ℚ :=
  max 50 (startW + dxS / zoom)

/-- The height dimension of handleResizeMove and handleResizeEnd in
BoardImage.tsx: with shift held it is newWidth / aspectRatio where
aspectRatio = startWidth / startHeight is captured at gesture start
(no clamp); without shift it is max 50 (startHeight + dy). -/
def imageResizeMoveHeight (startW startH zoom dxS dyS : ℚ) (shift : Bool) : ℚ :=
  if shift then imageResizeMoveWidth startW zoom dxS / (startW / startH)
  else max 50 (startH + dyS / zoom)

/-- handleResizeEnd in BoardImage.tsx commits the rounded pair. -/
def imageResizeCommit (startW startH zoom dxS dyS : ℚ) (shift : Bool) : ℤ × ℤ :=
  (mround (imageResizeMoveWidth startW zoom dxS),
   mround (imageResizeMoveHeight startW startH zoom dxS dyS shift))

/-- Math.round respects integer lower bounds. -/
lemma le_mround (c : ℤ) (x : ℚ) (h : (c : ℚ) ≤ x) : c ≤ mround x := by
  unfold mround
  rw [Int.le_floor]
  push_cast
  linarith

/-- Math.round of an integer value is that integer. -/
lemma mround_intCast (n : ℤ) : mround ((n : ℚ)) = n := by
  unfold mround
  rw [add_comm, Int.floor_add_int,
    show ⌊(1/2 : ℚ)⌋ = 0 by rw [Int.floor_eq_zero_iff]; constructor <;> norm_num,
    zero_add]

/-- C4 counterexample: a board image starting at 200 by 100 (both
dimensions at least 60), zoom 1, dragged 150 pixels left, commits
width 50, violating the claimed minimum of 60; with shift held, the
same gesture commits height 25 - the aspect-ratio height has no clamp
at all. -/
theorem image_resize_counterexample :
    (imageResizeCommit 200 100 1 (-150) 0 false).1 = 50 ∧
    ¬ ((60 : ℤ) ≤ (imageResizeCommit 200 100 1 (-150) 0 false).1) ∧
    (imageResizeCommit 200 100 1 (-150) 0 true).2 = 25 ∧
    ¬ ((50 : ℤ) ≤ (imageResizeCommit 200 100 1 (-150) 0 true).2) := by
  have hwid : imageResizeMoveWidth 200 1 (-150) = ((50 : ℤ) : ℚ) := by
    norm_num [imageResizeMoveWidth]
  have hhei : imageResizeMoveHeight 200 100 1 (-150) 0 true = ((25 : ℤ) : ℚ) := by
    norm_num [imageResizeMoveHeight, imageResizeMoveWidth]
  have h1 : (imageResizeCommit 200 100 1 (-150) 0 false).1 = 50 := by
    show mround (imageResizeMoveWidth 200 1 (-150)) = 50
    rw [hwid, mround_intCast]
  have h2 : (imageResizeCommit 200 100 1 (-150) 0 true).2 = 25 := by
    show mround (imageResizeMoveHeight 200 100 1 (-150) 0 true) = 25
    rw [hhei, mround_intCast]
  refine ⟨h1, ?_, h2, ?_⟩
  · rw [h1]; norm_num
  · rw [h2]; norm_num

/-- C4 amended: resize clamping as the code implements it.  Sticky
notes: for any start sizes, positive zoom and pointer deltas, width and
height are at least 60 at every intermediate move frame and in the
rounded commit, each computed as max 60 (start + delta / zoom).  Board
images: the clamp is 50, not 60 - width and the non-shift height are
max 50 (start + delta / zoom), at least 50 at every frame and commit -
while the shift-key height is newWidth divided by the start aspect
ratio: aspect-preserving and positive for positive start sizes, but
with no lower clamp (the counterexample commits 25). -/
theorem resize_min_size_amended (startW startH zoom dxS dyS : ℚ)
    (hz : 0 < zoom) (hw : 0 < startW) (hh : 0 < startH) :
    MIN_NOTE_SIZE ≤ resizeMoveSize startW zoom dxS ∧
    MIN_NOTE_SIZE ≤ resizeMoveSize startH zoom dyS ∧
    ((60 : ℤ) ≤ resizeCommitSize startW zoom dxS) ∧
    ((60 : ℤ) ≤ resizeCommitSize startH zoom dyS) ∧
    resizeMoveSize startW zoom dxS = max 60 (startW + dxS / zoom) ∧
    resizeMoveSize startH zoom dyS = max 60 (startH + dyS / zoom) ∧
    ((50 : ℚ) ≤ imageResizeMoveWidth startW zoom dxS) ∧
    ((50 : ℚ) ≤ imageResizeMoveHeight startW startH zoom dxS dyS false) ∧
    ((50 : ℤ) ≤ (imageResizeCommit startW startH zoom dxS dyS false).1) ∧
    ((50 : ℤ) ≤ (imageResizeCommit startW startH zoom dxS dyS false).2) ∧
    ((50 : ℤ) ≤ (imageResizeCommit startW startH zoom dxS dyS true).1) ∧
    imageResizeMoveHeight startW startH zoom dxS dyS true =
      imageResizeMoveWidth startW zoom dxS * startH / startW ∧
    0 < imageResizeMoveHeight startW startH zoom dxS dyS true := by
  have h50w : (50 : ℚ) ≤ imageResizeMoveWidth startW zoom dxS := le_max_left _ _
  have h50h : (50 : ℚ) ≤ imageResizeMoveHeight startW startH zoom dxS dyS false :=
    le_max_left _ _
  have h60w : (60 : ℚ) ≤ resizeMoveSize startW zoom dxS := le_max_left _ _
  have h60h : (60 : ℚ) ≤ resizeMoveSize startH zoom dyS := le_max_left _ _
  refine ⟨le_max_left _ _, le_max_left _ _,
    le_mround 60 _ (by exact_mod_cast h60w), le_mround 60 _ (by exact_mod_cast h60h),
    rfl, rfl, h50w, h50h,
    le_mround 50 _ (by exact_mod_cast h50w),
    le_mround 50 _ (by exact_mod_cast h50h),
    le_mround 50 _ (by exact_mod_cast h50w), ?_, ?_⟩
  · show imageResizeMoveWidth startW zoom dxS / (startW / startH) = _
    rw [div_div_eq_mul_div]
  · show 0 < imageResizeMoveWidth startW zoom dxS / (startW / startH)
    exact div_pos (lt_of_lt_of_le (by norm_num) h50w) (div_pos hw hh)

/-- Witness for the amended resize theorem: a shrink gesture of 1000
screen pixels at zoom 1/2 on a 200 by 100 object, as a note (clamped at
60) and as an image (clamped at 50). -/
theorem resize_min_size_amended_witness :
    MIN_NOTE_SIZE ≤ resizeMoveSize 200 (1/2) (-1000) ∧
    (50 : ℤ) ≤ (imageResizeCommit 200 100 (1/2) (-1000) (-1000) false).1 :=
  ⟨(resize_min_size_amended 200 100 (1/2) (-1000) (-1000)
      (by norm_num) (by norm_num) (by norm_num)).1,
   (resize_min_size_amended 200 100 (1/2) (-1000) (-1000)
      (by norm_num) (by norm_num) (by norm_num)).2.2.2.2.2.2.2.2.1⟩

/-! History manager (hooks/useHistory.ts). -/

/-- The type field of a HistoryAction. -/
inductive HActionType
  | batch
  | create
  | update
  | delete
  | move
deriving DecidableEq

/-- The elementType field of a HistoryAction. -/
inductive HElementType
  | note
  | label
  | line
  | drawing
  | image
deriving DecidableEq

/-- A HistoryAction from useHistory.ts: action kind, optional element
kind and description, optional nested batch actions, and the before and
after snapshots (the snapshot type is the parameter): an inductive
because the batch field nests the type inside a list. -/
inductive HistoryAction (α : Type) : Type
  | mk (type : HActionType) (elementType : Option HElementType)
       (description : Option String)
       (actions : Option (List (HistoryAction α)))
       (before : α) (after : α)

/-- The before snapshot of a HistoryAction. -/
def HistoryAction.before {α : Type} : HistoryAction α → α
  | .mk _ _ _ _ b _ => b

/-- The after snapshot of a HistoryAction. -/
def HistoryAction.after {α : Type} : HistoryAction α → α
  | .mk _ _ _ _ _ a => a

/-- The state held by useHistory: the past and future stacks. -/
structure HistoryState (α : Type) where
  past : List (HistoryAction α)
  future : List (HistoryAction α)

/-- push from useHistory.ts: append to past; when the length exceeds
maxSize keep only the last maxSize entries (slice from
length - maxSize); unconditionally clear future. -/
def push {α : Type} (maxSize : ℕ) (s : HistoryState α)
    (a : HistoryAction α) : HistoryState α :=
  { past :=
      if maxSize < (s.past ++ [a]).length then
        (s.past ++ [a]).drop ((s.past ++ [a]).length - maxSize)
      else s.past ++ [a]
    future := [] }

/-- undo from useHistory.ts: when past is empty return null leaving the
stacks alone; otherwise move the last past entry to future and return
its before snapshot. -/
def undo {α : Type} (s : HistoryState α) : HistoryState α × Option α :=
  match s.past.getLast? with
  | none => (s, none)
  | some last => ({ past := s.past.dropLast, future := s.future ++ [last] },
      some last.before)

/-- redo from useHistory.ts: when future is empty return null leaving
the stacks alone; otherwise move the last future entry to past and
return its after snapshot. -/
def redo {α : Type} (s : HistoryState α) : HistoryState α × Option α :=
  match s.future.getLast? with
  | none => (s, none)
  | some nxt => ({ past := s.past ++ [nxt], future := s.future.dropLast },
      some nxt.after)

/-- canUndo from useHistory.ts. -/
def canUndo {α : Type} (s : HistoryState α) : Bool := 0 < s.past.length

/-- canRedo from useHistory.ts. -/
def canRedo {α : Type} (s : HistoryState α) : Bool := 0 < s.future.length

/-- Push a list of entries in order. -/
def pushList {α : Type} (maxSize : ℕ) (s : HistoryState α)
    (es : List (HistoryAction α)) : HistoryState α :=
  es.foldl (push maxSize) s

/-- Iterate undo: the state after n undos together with the return
value of the n-th undo. -/
def undoIter {α : Type} (s : HistoryState α) : ℕ → HistoryState α × Option α
  | 0 => (s, none)
  | n + 1 => undo (undoIter s n).1

/-- A concrete numbered history entry: before snapshot i, after
snapshot 100 + i. -/
def natEntry (i : ℕ) : HistoryAction ℕ := .mk .update none none none i (100 + i)

/-- The state after pushing the 25 concrete entries natEntry 1 to
natEntry 25 onto an empty capacity-20 history. -/
def hist25 : HistoryState ℕ :=
  pushList 20 ⟨[], []⟩ ((List.range 25).map (fun i => natEntry (i + 1)))

set_option maxRecDepth 4000

/-- C3 counterexample: after pushing 25 entries onto a capacity-20
manager and undoing all 20 retained entries, a single redo returns the
after snapshot of the OLDEST retained entry (number 6), not that of the
most recent entry (number 25), refuting the claim's redo clause. -/
theorem history_redo_counterexample :
    (redo (undoIter hist25 20).1).2 = some ((natEntry 6).after) ∧
    (redo (undoIter hist25 20).1).2 ≠ some ((natEntry 25).after) := by
  constructor
  · rfl
  · intro h
    have h106 : (106 : ℕ) = 125 := by
      have h' := h
      rw [show (redo (undoIter hist25 20).1).2 = some 106 from rfl] at h'
      exact Option.some.inj h'
    norm_num at h106

set_option maxHeartbeats 3200000

/-- C3 amended: bounded history with FIFO eviction and stack semantics.
Pushing any 25 entries onto an empty capacity-20 manager retains
exactly the 20 most recent in order; undoing all 20 returns, last, the
before snapshot of the oldest retained entry (a6) and empties the past
stack; a single redo after the full undo returns the after snapshot of
the oldest retained entry (the last one undone); and pushing any new
entry after an undo empties the future stack, so a subsequent redo is a
no-op returning nothing. -/
theorem history_scenario_25 (α : Type)
    (a1 a2 a3 a4 a5 a6 a7 a8 a9 a10 a11 a12 a13 a14 a15 a16 a17 a18 a19 a20
     a21 a22 a23 a24 a25 b : HistoryAction α) :
    (pushList 20 ⟨[], []⟩
        [a1, a2, a3, a4, a5, a6, a7, a8, a9, a10, a11, a12, a13, a14, a15,
         a16, a17, a18, a19, a20, a21, a22, a23, a24, a25]).past =
      [a6, a7, a8, a9, a10, a11, a12, a13, a14, a15, a16, a17, a18, a19,
       a20, a21, a22, a23, a24, a25] ∧
    (undoIter (pushList 20 ⟨[], []⟩
        [a1, a2, a3, a4, a5, a6, a7, a8, a9, a10, a11, a12, a13, a14, a15,
         a16, a17, a18, a19, a20, a21, a22, a23, a24, a25]) 20).2 =
      some a6.before ∧
    (undoIter (pushList 20 ⟨[], []⟩
        [a1, a2, a3, a4, a5, a6, a7, a8, a9, a10, a11, a12, a13, a14, a15,
         a16, a17, a18, a19, a20, a21, a22, a23, a24, a25]) 20).1.past = [] ∧
    (redo (undoIter (pushList 20 ⟨[], []⟩
        [a1, a2, a3, a4, a5, a6, a7, a8, a9, a10, a11, a12, a13, a14, a15,
         a16, a17, a18, a19, a20, a21, a22, a23, a24, a25]) 20).1).2 =
      some a6.after ∧
    (push 20 (undoIter (pushList 20 ⟨[], []⟩
        [a1, a2, a3, a4, a5, a6, a7, a8, a9, a10, a11, a12, a13, a14, a15,
         a16, a17, a18, a19, a20, a21, a22, a23, a24, a25]) 1).1 b).future
      = [] ∧
    (redo (push 20 (undoIter (pushList 20 ⟨[], []⟩
        [a1, a2, a3, a4, a5, a6, a7, a8, a9, a10, a11, a12, a13, a14, a15,
         a16, a17, a18, a19, a20, a21, a22, a23, a24, a25]) 1).1 b)).2
      = none := by
  refine ⟨?_, ?_, ?_, ?_, ?_, ?_⟩ <;>
    simp [pushList, push, undoIter, undo, redo,
      HistoryAction.before, HistoryAction.after]

/-! Board page state with local board, history and dirty flag
(the Board page variant using useHistory; src/unnamed/part_001). -/

/-- A sticky note (shared/schema.ts).  Server bookkeeping fields
(boardId, createdAt, updatedAt) are not modelled. -/
structure NoteObj where
  id : String
  text : String
  x : ℚ
  y : ℚ
  color : String
  shape : String
  rotation : ℚ
  width : Option ℚ
  height : Option ℚ
  fontSize : ℚ
  fontFamily : String
  textColor : String
deriving DecidableEq

/-- A text label (shared/schema.ts), geometry and style fields. -/
structure LabelObj where
  id : String
  text : String
  x : ℚ
  y : ℚ
  fontSize : ℚ
  fontStyle : String
  color : String
  rotation : ℚ
deriving DecidableEq

/-- A freehand drawing (shared/schema.ts): colour, thickness and path. -/
structure DrawingObj where
  id : String
  color : String
  thickness : ℚ
  path : List Pt
deriving DecidableEq

/-- A board image (shared/schema.ts): source, position and size. -/
structure ImageObj where
  id : String
  src : String
  x : ℚ
  y : ℚ
  width : ℚ
  height : ℚ
  rotation : ℚ
deriving DecidableEq

/-- The local board snapshot held by the Board page: the five object
collections. -/
structure BoardSnapshot where
  stickyNotes : List NoteObj
  drawings : List DrawingObj
  textLabels : List LabelObj
  lines : List LineObj
  images : List ImageObj
deriving DecidableEq

/-- The empty board used as the fallback for a null localBoard and as
the result of clearing the board. -/
def emptyBoard : BoardSnapshot := ⟨[], [], [], [], []⟩

/-- The state of the Board page relevant to mutation tracking: the
nullable local board, the unsaved-changes (dirty) flag, and the
useHistory stacks (capacity 20). -/
structure BoardPage where
  localBoard : Option BoardSnapshot
  hasUnsavedChanges : Bool
  history : HistoryState BoardSnapshot

/-- The localBoard-or-empty fallback the note handlers use
(localBoard or the object of empty collections). -/
def orEmpty (o : Option BoardSnapshot) : BoardSnapshot := o.getD emptyBoard

/-- handleUpdateNote from the Board page: compute the after state by
mapping the update over the matching note, push an update history
entry carrying the before and after snapshots, install the after state
and set the dirty flag.  A Partial update object is modelled as the
function upd it induces on the matching note. -/
def handleUpdateNote (s : BoardPage) (id : String)
    (upd : NoteObj → NoteObj) : BoardPage :=
  let beforeState := orEmpty s.localBoard
  let afterState := { beforeState with
    stickyNotes := beforeState.stickyNotes.map
      (fun n => if n.id = id then upd n else n) }
  { localBoard := some afterState
    hasUnsavedChanges := true
    history := push 20 s.history
      (.mk .update (some .note) none none beforeState afterState) }

/-- handleDeleteNote from the Board page: filter the note out, push a
delete history entry, install the after state, set dirty.  (Clearing
the note selection is not modelled.) -/
def handleDeleteNote (s : BoardPage) (id : String) : BoardPage :=
  let beforeState := orEmpty s.localBoard
  let afterState := { beforeState with
    stickyNotes := beforeState.stickyNotes.filter (fun n => ¬ n.id = id) }
  { localBoard := some afterState
    hasUnsavedChanges := true
    history := push 20 s.history
      (.mk .delete (some .note) none none beforeState afterState) }

/-- The JavaScript value-or-default idiom (note.width or DEFAULT):
null and 0 are falsy and give the default. -/
def jsOr (o : Option ℚ) (d : ℚ) : ℚ :=
  match o with
  | none => d
  | some w => if w = 0 then d else w

/-- createNote from the Board page: build the new note (width and
height defaulted to 200 when falsy), append it, push a create history
entry, install the after state, set dirty.  Identifier generation and
timestamps are taken as given through the newNote argument. -/
def createNote (s : BoardPage) (newNote : NoteObj) : BoardPage :=
  let beforeState := orEmpty s.localBoard
  let built := { newNote with
    width := some (jsOr newNote.width 200)
    height := some (jsOr newNote.height 200) }
  let afterState := { beforeState with
    stickyNotes := beforeState.stickyNotes ++ [built] }
  { localBoard := some afterState
    hasUnsavedChanges := true
    history := push 20 s.history
      (.mk .create (some .note) none none beforeState afterState) }

/-- handleAddDrawingLocal from the Board page: append the drawing to a
non-null board and set dirty; no history entry is pushed. -/
def handleAddDrawingLocal (s : BoardPage) (d : DrawingObj) : BoardPage :=
  { localBoard := s.localBoard.map (fun b => { b with drawings := b.drawings ++ [d] })
    hasUnsavedChanges := true
    history := s.history }

/-- handleCreateTextLabel from the Board page: append the label and set
dirty; no history entry is pushed. -/
def handleCreateTextLabel (s : BoardPage) (l : LabelObj) : BoardPage :=
  { localBoard := s.localBoard.map (fun b => { b with textLabels := b.textLabels ++ [l] })
    hasUnsavedChanges := true
    history := s.history }

/-- handleUpdateTextLabel from the Board page: map the update over the
matching label and set dirty; no history entry is pushed. -/
def handleUpdateTextLabel (s : BoardPage) (id : String)
    (upd : LabelObj → LabelObj) : BoardPage :=
  { localBoard := s.localBoard.map (fun b => { b with
      textLabels := b.textLabels.map (fun l => if l.id = id then upd l else l) })
    hasUnsavedChanges := true
    history := s.history }

/-- handleDeleteTextLabel from the Board page: filter the label out and
set dirty; no history entry is pushed. -/
def handleDeleteTextLabel (s : BoardPage) (id : String) : BoardPage :=
  { localBoard := s.localBoard.map (fun b => { b with
      textLabels := b.textLabels.filter (fun l => ¬ l.id = id) })
    hasUnsavedChanges := true
    history := s.history }

/-- handleCreateLine from the Board page: append the line and set
dirty; no history entry is pushed. -/
def handleCreateLine (s : BoardPage) (l : LineObj) : BoardPage :=
  { localBoard := s.localBoard.map (fun b => { b with lines := b.lines ++ [l] })
    hasUnsavedChanges := true
    history := s.history }

/-- handleUpdateLine from the Board page: map the update over the
matching line and set dirty; no history entry is pushed. -/
def handleUpdateLine (s : BoardPage) (id : String)
    (upd : LineObj → LineObj) : BoardPage :=
  { localBoard := s.localBoard.map (fun b => { b with
      lines := b.lines.map (fun l => if l.id = id then upd l else l) })
    hasUnsavedChanges := true
    history := s.history }

/-- handleDeleteLine from the Board page: filter the line out and set
dirty; no history entry is pushed. -/
def handleDeleteLine (s : BoardPage) (id : String) : BoardPage :=
  { localBoard := s.localBoard.map (fun b => { b with
      lines := b.lines.filter (fun l => ¬ l.id = id) })
    hasUnsavedChanges := true
    history := s.history }

/-- handleCreateBoardImage from the Board page: append the image and
set dirty; no history entry is pushed. -/
def handleCreateBoardImage (s : BoardPage) (i : ImageObj) : BoardPage :=
  { localBoard := s.localBoard.map (fun b => { b with images := b.images ++ [i] })
    hasUnsavedChanges := true
    history := s.history }

/-- handleUpdateBoardImage from the Board page: map the update over the
matching image and set dirty; no history entry is pushed. -/
def handleUpdateBoardImage (s : BoardPage) (id : String)
    (upd : ImageObj → ImageObj) : BoardPage :=
  { localBoard := s.localBoard.map (fun b => { b with
      images := b.images.map (fun i => if i.id = id then upd i else i) })
    hasUnsavedChanges := true
    history := s.history }

/-- handleDeleteBoardImage from the Board page: filter the image out
and set dirty; no history entry is pushed. -/
def handleDeleteBoardImage (s : BoardPage) (id : String) : BoardPage :=
  { localBoard := s.localBoard.map (fun b => { b with
      images := b.images.filter (fun i => ¬ i.id = id) })
    hasUnsavedChanges := true
    history := s.history }

/-- handleClearBoard from the Board page: install empty collections and
set dirty; the history stacks are not touched and no entry is pushed. -/
def handleClearBoard (s : BoardPage) : BoardPage :=
  { localBoard := some ⟨[], [], [], [], []⟩
    hasUnsavedChanges := true
    history := s.history }

/-- safeUndo from the Board page: ask the history for the previous
snapshot (which always moves the stacks when the past is nonempty);
install it and set dirty only when both the returned snapshot and the
local board are non-null. -/
def safeUndo (s : BoardPage) : BoardPage :=
  match (undo s.history).2, s.localBoard with
  | some prev, some _ =>
      { localBoard := some prev
        hasUnsavedChanges := true
        history := (undo s.history).1 }
  | _, _ => { s with history := (undo s.history).1 }

/-- The outcome of the saveBoard network call. -/
inductive SaveOutcome
  | success
  | failure
deriving DecidableEq

/-- saveBoardMutation from the Board page: on success clear the dirty
flag (onSuccess also refetches the server copy, outside this model); on
failure leave the whole state untouched and surface the error (the
returned flag models the destructive Save Failed toast shown to the
user). -/
def applySave (s : BoardPage) : SaveOutcome → BoardPage × Bool
  | .success => ({ s with hasUnsavedChanges := false }, false)
  | .failure => (s, true)

/-- A concrete line for the mutation-tracking counterexample. -/
def cexLine : LineObj := ⟨"l1", 0, 0, 100, 0, "#000000", 3, "solid"⟩

/-- A concrete clean Board page holding one line and no history. -/
def cexPage : BoardPage :=
  { localBoard := some { emptyBoard with lines := [cexLine] }
    hasUnsavedChanges := false
    history := ⟨[], []⟩ }

/-- C7 counterexample: updating a line mutates the canonical snapshot
and sets the dirty flag, yet pushes no history entry - the past and
future stacks stay empty - refuting the claim that every mutating
operation is history-tracked. -/
theorem untracked_mutation_counterexample :
    (handleUpdateLine cexPage "l1" (fun l => { l with x1 := 5 })).localBoard ≠
      cexPage.localBoard ∧
    (handleUpdateLine cexPage "l1" (fun l => { l with x1 := 5 })).hasUnsavedChanges
      = true ∧
    (handleUpdateLine cexPage "l1" (fun l => { l with x1 := 5 })).history.past
      = [] ∧
    (handleUpdateLine cexPage "l1" (fun l => { l with x1 := 5 })).history.future
      = [] := by
  refine ⟨?_, rfl, rfl, rfl⟩
  intro h
  have hx : (5 : ℚ) = 0 := by
    have h1 := congrArg (fun o => ((orEmpty o).lines.map (fun l => l.x1))) h
    simpa [handleUpdateLine, cexPage, cexLine, orEmpty, emptyBoard] using h1
  norm_num at hx

/-- C7 amended: only the sticky-note mutations (update, delete, create)
are history-tracked - each pushes an entry whose before snapshot is the
previous canonical snapshot and whose after snapshot becomes the new
canonical snapshot, and sets the dirty flag - while the drawing, text
label, line and image mutations install the new snapshot and set the
dirty flag without pushing any history entry. -/
theorem mutation_tracking_amended (s : BoardPage) (id : String)
    (updN : NoteObj → NoteObj) (n : NoteObj)
    (updL : LineObj → LineObj) (l : LineObj)
    (updT : LabelObj → LabelObj) (t : LabelObj)
    (updI : ImageObj → ImageObj) (im : ImageObj) (d : DrawingObj) :
    (∃ e, (handleUpdateNote s id updN).history = push 20 s.history e ∧
      e.before = orEmpty s.localBoard ∧
      (handleUpdateNote s id updN).localBoard = some e.after ∧
      (handleUpdateNote s id updN).hasUnsavedChanges = true) ∧
    (∃ e, (handleDeleteNote s id).history = push 20 s.history e ∧
      e.before = orEmpty s.localBoard ∧
      (handleDeleteNote s id).localBoard = some e.after ∧
      (handleDeleteNote s id).hasUnsavedChanges = true) ∧
    (∃ e, (createNote s n).history = push 20 s.history e ∧
      e.before = orEmpty s.localBoard ∧
      (createNote s n).localBoard = some e.after ∧
      (createNote s n).hasUnsavedChanges = true) ∧
    ((handleUpdateLine s id updL).history = s.history ∧
      (handleUpdateLine s id updL).hasUnsavedChanges = true) ∧
    ((handleCreateLine s l).history = s.history ∧
      (handleCreateLine s l).hasUnsavedChanges = true) ∧
    ((handleDeleteLine s id).history = s.history ∧
      (handleDeleteLine s id).hasUnsavedChanges = true) ∧
    ((handleUpdateTextLabel s id updT).history = s.history ∧
      (handleUpdateTextLabel s id updT).hasUnsavedChanges = true) ∧
    ((handleCreateTextLabel s t).history = s.history ∧
      (handleCreateTextLabel s t).hasUnsavedChanges = true) ∧
    ((handleDeleteTextLabel s id).history = s.history ∧
      (handleDeleteTextLabel s id).hasUnsavedChanges = true) ∧
    ((handleAddDrawingLocal s d).history = s.history ∧
      (handleAddDrawingLocal s d).hasUnsavedChanges = true) ∧
    ((handleCreateBoardImage s im).history = s.history ∧
      (handleCreateBoardImage s im).hasUnsavedChanges = true) ∧
    ((handleUpdateBoardImage s id updI).history = s.history ∧
      (handleUpdateBoardImage s id updI).hasUnsavedChanges = true) ∧
    ((handleDeleteBoardImage s id).history = s.history ∧
      (handleDeleteBoardImage s id).hasUnsavedChanges = true) :=
  ⟨⟨_, rfl, rfl, rfl, rfl⟩, ⟨_, rfl, rfl, rfl, rfl⟩, ⟨_, rfl, rfl, rfl, rfl⟩,
   ⟨rfl, rfl⟩, ⟨rfl, rfl⟩, ⟨rfl, rfl⟩, ⟨rfl, rfl⟩, ⟨rfl, rfl⟩, ⟨rfl, rfl⟩,
   ⟨rfl, rfl⟩, ⟨rfl, rfl⟩, ⟨rfl, rfl⟩, ⟨rfl, rfl⟩⟩

/-- C8: Save-failure atomicity.  For a dirty board state, a failed save
leaves the local snapshot, the dirty flag and the history untouched and
surfaces the failure; the dirty flag is cleared only by a successful
save. -/
theorem save_failure_atomic (s : BoardPage) (h : s.hasUnsavedChanges = true) :
    (applySave s .failure).1.localBoard = s.localBoard ∧
    (applySave s .failure).1.hasUnsavedChanges = true ∧
    (applySave s .failure).1.history = s.history ∧
    (applySave s .failure).2 = true ∧
    (∀ r : SaveOutcome, (applySave s r).1.hasUnsavedChanges = false →
      r = SaveOutcome.success) := by
  refine ⟨rfl, h, rfl, rfl, ?_⟩
  intro r hr
  cases r with
  | success => rfl
  | failure =>
      rw [show (applySave s .failure).1.hasUnsavedChanges = s.hasUnsavedChanges
        from rfl, h] at hr
      exact absurd hr (by norm_num)

/-- Witness for save-failure atomicity at a concrete dirty state. -/
theorem save_failure_atomic_witness :
    (applySave ⟨some emptyBoard, true, ⟨[], []⟩⟩ .failure).1.hasUnsavedChanges
      = true :=
  (save_failure_atomic ⟨some emptyBoard, true, ⟨[], []⟩⟩ rfl).2.1

/-- C9: Clearing the board is not history-tracked.  handleClearBoard
installs empty collections and sets the dirty flag, but the history
stacks, canUndo and canRedo are exactly what they were, and the
snapshot an undo would return after the clear is the same one it would
have returned before the clear (the cleared content is not restored as
a most recent entry). -/
theorem clear_board_not_tracked (s : BoardPage) :
    (handleClearBoard s).localBoard = some emptyBoard ∧
    (handleClearBoard s).hasUnsavedChanges = true ∧
    (handleClearBoard s).history = s.history ∧
    canUndo (handleClearBoard s).history = canUndo s.history ∧
    canRedo (handleClearBoard s).history = canRedo s.history ∧
    (undo (handleClearBoard s).history).2 = (undo s.history).2 :=
  ⟨rfl, rfl, rfl, rfl, rfl, rfl⟩

end MarkerMind
